import Mathlib

/-!
Verification of the arena-backed JSON document core of this repository
(`src/src/ArduinoJson/Document/JsonDocument.hpp`).

The document façade (`JsonDocument`) is present in the sources; the arena
allocator (`detail::ResourceManager`), the tagged value graph
(`detail::VariantData`) and the deep-copy traversal (`JsonVariant::set`)
are only declared/used there, so those parts are modelled from the spec
(see the doc comments starting with `Modelled from the spec:`).

Machine sizes are Nat; a value slot costs `slotSize` bytes and an owned
string of length n costs n + 1 bytes, mirroring the fixed-slot /
variable-span accounting described in the spec.
-/

namespace ArduinoJson

/-- Size in bytes of one fixed value slot in the arena. -/
def slotSize : Nat := 16

/-- Size in bytes of an owned string stored in the arena (content plus terminator). -/
def stringSize (s : String) : Nat := s.length + 1

/-- Modelled from the spec: the tagged value graph (`detail::VariantData`,
not under src/). Variants: Null, Boolean, Integer, Float (represented by
its raw bit pattern), string (owned or linked text, represented by its
text), Array (ordered children), Object (ordered key/child pairs). -/
inductive VariantData where
  | nullV : VariantData
  | boolV : Bool → VariantData
  | intV : Int → VariantData
  | floatV : Nat → VariantData
  | strV : String → VariantData
  | arrV : List VariantData → VariantData
  | objV : List (String × VariantData) → VariantData

mutual

/-- Arena bytes consumed by the reachable graph below a node (the node
itself lives in its parent's slot, or in the document header for the root,
so only children and string payloads count). -/
def VariantData.liveSize : VariantData → Nat
  | .nullV => 0
  | .boolV _ => 0
  | .intV _ => 0
  | .floatV _ => 0
  | .strV s => stringSize s
  | .arrV xs => liveSizeList xs
  | .objV ms => liveSizeMembers ms

/-- Arena bytes consumed by the elements of an array: one slot per child
plus each child's own reachable storage. -/
def liveSizeList : List VariantData → Nat
  | [] => 0
  | x :: xs => slotSize + x.liveSize + liveSizeList xs

/-- Arena bytes consumed by the members of an object: one slot and the key
string per member plus each child's own reachable storage. -/
def liveSizeMembers : List (String × VariantData) → Nat
  | [] => 0
  | m :: ms => slotSize + stringSize m.1 + m.2.liveSize + liveSizeMembers ms

end

mutual

/-- Modelled from the spec: the canonical clone-live-subgraph traversal
(`JsonVariant::set` deep copy, not under src/) that visits each reachable
node and rebuilds it with fresh nodes in the target arena. -/
def variantCopy : VariantData → VariantData
  | .nullV => .nullV
  | .boolV b => .boolV b
  | .intV i => .intV i
  | .floatV n => .floatV n
  | .strV s => .strV s
  | .arrV xs => .arrV (variantCopyList xs)
  | .objV ms => .objV (variantCopyMembers ms)

/-- Clone of an array's child list, in order. -/
def variantCopyList : List VariantData → List VariantData
  | [] => []
  | x :: xs => variantCopy x :: variantCopyList xs

/-- Clone of an object's member list, in order. -/
def variantCopyMembers : List (String × VariantData) → List (String × VariantData)
  | [] => []
  | m :: ms => (m.1, variantCopy m.2) :: variantCopyMembers ms

end

mutual

/-- Graph equality of two nodes (spec §4.2): same tag, same scalar value,
and for containers the same size with pairwise-equal children in order
(objects additionally compare keys pairwise). -/
def graphEq : VariantData → VariantData → Bool
  | .nullV, .nullV => true
  | .boolV a, .boolV b => a == b
  | .intV a, .intV b => a == b
  | .floatV a, .floatV b => a == b
  | .strV a, .strV b => a == b
  | .arrV xs, .arrV ys => graphEqList xs ys
  | .objV xs, .objV ys => graphEqMembers xs ys
  | _, _ => false

/-- Pairwise graph equality of two child lists of the same length. -/
def graphEqList : List VariantData → List VariantData → Bool
  | [], [] => true
  | x :: xs, y :: ys => graphEq x y && graphEqList xs ys
  | _, _ => false

/-- Pairwise graph equality of two member lists: same keys in the same
order with graph-equal children. -/
def graphEqMembers : List (String × VariantData) → List (String × VariantData) → Bool
  | [], [] => true
  | x :: xs, y :: ys => x.1 == y.1 && graphEq x.2 y.2 && graphEqMembers xs ys
  | _, _ => false

end

/-- Modelled from the spec: the arena allocator (`detail::ResourceManager`,
not under src/): capacity in bytes, used bytes (live data plus holes), and
the sticky overflow flag. -/
structure ResourceManager where
  capacity : Nat
  used : Nat
  overflowed : Bool
  deriving Repr, DecidableEq

/-- Modelled from the spec: `ResourceManager(capa, alloc)` creates an empty
arena of the requested capacity. -/
def ResourceManager.new (capa : Nat) : ResourceManager :=
  ⟨capa, 0, false⟩

/-- Modelled from the spec: an allocation of n bytes succeeds and advances
the used size when it fits within capacity; otherwise it fails, sets the
sticky overflow flag and changes nothing else. -/
def ResourceManager.alloc (rm : ResourceManager) (n : Nat) : Bool × ResourceManager :=
  if rm.used + n ≤ rm.capacity then
    (true, { rm with used := rm.used + n })
  else
    (false, { rm with overflowed := true })

/-- Modelled from the spec: `ResourceManager::clear()` resets the used size
to zero and clears the overflow flag; the backing region (capacity) is kept. -/
def ResourceManager.clear (rm : ResourceManager) : ResourceManager :=
  { rm with used := 0, overflowed := false }

/-- Modelled from the spec: `ResourceManager::size()`, the bytes currently
consumed in the arena (live plus holes). -/
def ResourceManager.size (rm : ResourceManager) : Nat :=
  rm.used

/-- The document: one arena (`resources_`) and one root node (`data_`),
as in `JsonDocument.hpp`. -/
structure JsonDocument where
  resources : ResourceManager
  data : VariantData

/-- `JsonDocument(capa, alloc)`: allocator created with the given capacity,
root = Null. -/
def JsonDocument.new (capa : Nat) : JsonDocument :=
  ⟨ResourceManager.new capa, .nullV⟩

/-- `memoryUsage()`: returns `resources_.size()`. -/
def JsonDocument.memoryUsage (d : JsonDocument) : Nat :=
  d.resources.size

/-- `overflowed()`: returns `resources_.overflowed()`. -/
def JsonDocument.overflowed (d : JsonDocument) : Bool :=
  d.resources.overflowed

/-- Modelled from the spec: `VariantData::size()` (not under src/), the
element count of the root array/object, 0 for scalars and Null. -/
def VariantData.size : VariantData → Nat
  | .arrV xs => xs.length
  | .objV ms => ms.length
  | _ => 0

/-- `size()`: returns `data_.size()`. -/
def JsonDocument.size (d : JsonDocument) : Nat :=
  d.data.size

/-- Modelled from the spec: `VariantData::getElement` (not under src/),
an O(n) scan returning the i-th child of an array, none when out of range
or on tag mismatch. -/
def JsonDocument.getElement (d : JsonDocument) (i : Nat) : Option VariantData :=
  match d.data with
  | .arrV xs => xs.get? i
  | _ => none

/-- Modelled from the spec: `VariantData::getMember` (not under src/), an
O(n) scan with byte-exact key comparison, none when absent or on tag
mismatch. -/
def JsonDocument.getMember (d : JsonDocument) (k : String) : Option VariantData :=
  match d.data with
  | .objV ms => (ms.find? (fun m => m.1 == k)).map (fun m => m.2)
  | _ => none

/-- `clear()`: `resources_.clear(); data_.reset()` — arena reset to empty
(capacity retained), root set to Null. -/
def JsonDocument.clear (d : JsonDocument) : JsonDocument :=
  ⟨d.resources.clear, .nullV⟩

/-- `set(const JsonDocument&)` = `to<JsonVariant>().set(src)`: clears the
document, then deep-copies the source graph into the fresh arena.
Modelled from the spec for the traversal itself (not under src/): the
clone allocates the reachable graph's storage; when even that does not fit
the copy fails, leaving the overflow flag set and the root Null
(no claim exercises a partial clone). -/
def JsonDocument.setFrom (d : JsonDocument) (src : VariantData) : JsonDocument :=
  let c := d.clear
  if src.liveSize ≤ c.resources.capacity then
    ⟨⟨c.resources.capacity, src.liveSize, false⟩, variantCopy src⟩
  else
    ⟨⟨c.resources.capacity, c.resources.used, true⟩, .nullV⟩

/-- Copy-constructor: `JsonDocument(src.resources_.capacity(), src.allocator())`
followed by `set(src)` — the new arena is sized to the source's capacity
and the reachable graph is deep-copied into it. -/
def JsonDocument.copyCtor (src : JsonDocument) : JsonDocument :=
  (JsonDocument.new src.resources.capacity).setFrom src.data

/-- `moveAssignFrom(src)`: `data_ = src.data_; src.data_.reset();
resources_ = move(src.resources_)`. Returns the pair (new destination,
what remains of the source). Modelled from the spec for the moved-from
arena (not under src/): the source is left empty with capacity 0. -/
def JsonDocument.moveAssignFrom (dst src : JsonDocument) :
    JsonDocument × JsonDocument :=
  let _ := dst
  (⟨src.resources, src.data⟩, ⟨⟨0, 0, false⟩, .nullV⟩)

/-- Move-constructor: `resources_(0, src.allocator())` then
`moveAssignFrom(src)`. -/
def JsonDocument.moveCtor (src : JsonDocument) : JsonDocument × JsonDocument :=
  (JsonDocument.new 0).moveAssignFrom src

/-- `garbageCollect()`: make a temporary clone via the copy-constructor;
if the temporary's capacity is zero return false without effect, otherwise
move-assign the temporary into self and return true. -/
def JsonDocument.garbageCollect (d : JsonDocument) : Bool × JsonDocument :=
  let tmp := JsonDocument.copyCtor d
  if tmp.resources.capacity = 0 then
    (false, d)
  else
    (true, (d.moveAssignFrom tmp).1)

/-- `shrinkToFit()`: `resources_.shrinkToFit()` then
`data_.movePointers(offset)`. Modelled from the spec for the arena side
(not under src/): compaction repacks exactly the reachable graph, so the
capacity and used size both drop to the reachable graph's storage need;
the relocation delta applied to the root is the identity in this
offset-free tree model. -/
def JsonDocument.shrinkToFit (d : JsonDocument) : JsonDocument :=
  ⟨⟨d.data.liveSize, d.data.liveSize, d.resources.overflowed⟩, d.data⟩

/-- `to<JsonArray>()`: `clear()` then convert the fresh Null root to an
empty array (`getVariant().to<JsonArray>()`, auto-vivification of the
cleared root). -/
def JsonDocument.toJsonArray (d : JsonDocument) : JsonDocument :=
  ⟨d.clear.resources, .arrV []⟩

/-- `to<JsonObject>()`: `clear()` then convert the fresh Null root to an
empty object. -/
def JsonDocument.toJsonObject (d : JsonDocument) : JsonDocument :=
  ⟨d.clear.resources, .objV []⟩

/-- `to<JsonVariant>()`: `clear()` then return the fresh Null root. -/
def JsonDocument.toJsonVariant (d : JsonDocument) : JsonDocument :=
  d.clear

/-- `add(value)` = `add().set(value)`. Modelled from the spec for
`VariantData::addElement` (not under src/): a Null root auto-vivifies to
an Array, an Array appends, any other tag fails without mutation; the new
element's slot and payload are allocated from the arena, and on overflow
nothing is appended. -/
def JsonDocument.add (d : JsonDocument) (v : VariantData) : Bool × JsonDocument :=
  match d.data with
  | .nullV =>
      let (ok, rm) := d.resources.alloc (slotSize + v.liveSize)
      if ok then (true, ⟨rm, .arrV [v]⟩) else (false, ⟨rm, .nullV⟩)
  | .arrV xs =>
      let (ok, rm) := d.resources.alloc (slotSize + v.liveSize)
      if ok then (true, ⟨rm, .arrV (xs ++ [v])⟩) else (false, ⟨rm, .arrV xs⟩)
  | _ => (false, d)

/-- Modelled from the spec: `set_member(node, key, value)` (not under
src/): a Null root auto-vivifies to an Object; an existing key is
overwritten in place (same position, new child storage allocated, the old
child's bytes become a hole); a new key appends a (key, child) pair with
slot, key text and payload allocated; any other tag fails without
mutation, as does overflow. -/
def JsonDocument.setMember (d : JsonDocument) (k : String) (v : VariantData) :
    Bool × JsonDocument :=
  match d.data with
  | .nullV =>
      let (ok, rm) := d.resources.alloc (slotSize + stringSize k + v.liveSize)
      if ok then (true, ⟨rm, .objV [(k, v)]⟩) else (false, ⟨rm, .nullV⟩)
  | .objV ms =>
      if ms.any (fun m => m.1 == k) then
        let (ok, rm) := d.resources.alloc v.liveSize
        if ok then
          (true, ⟨rm, .objV (ms.map (fun m => if m.1 == k then (k, v) else m))⟩)
        else (false, ⟨rm, .objV ms⟩)
      else
        let (ok, rm) := d.resources.alloc (slotSize + stringSize k + v.liveSize)
        if ok then (true, ⟨rm, .objV (ms ++ [(k, v)])⟩)
        else (false, ⟨rm, .objV ms⟩)
  | _ => (false, d)

/-- `remove(index)` = `variantRemoveElement` (traversal modelled from the
spec, not under src/): unlinks the i-th entry of the root array, shifting
subsequent entries to fill the gap; no arena bytes are released and
nothing happens on tag mismatch or when out of range. -/
def JsonDocument.removeElement (d : JsonDocument) (i : Nat) : JsonDocument :=
  match d.data with
  | .arrV xs => ⟨d.resources, .arrV (xs.eraseIdx i)⟩
  | _ => d

/-- `remove(key)` = `variantRemoveMember` (traversal modelled from the
spec, not under src/): unlinks the member with the given key (byte-exact
comparison), shifting subsequent entries to fill the gap; no arena bytes
are released and nothing happens on tag mismatch or when the key is
absent. -/
def JsonDocument.removeMember (d : JsonDocument) (k : String) : JsonDocument :=
  match d.data with
  | .objV ms => ⟨d.resources, .objV (ms.eraseP (fun m => m.1 == k))⟩
  | _ => d

/-- Document operations available through the public mutation surface,
used to quantify over arbitrary operation sequences. -/
inductive DocOp where
  | addValue : VariantData → DocOp
  | setMemberOp : String → VariantData → DocOp
  | removeElementOp : Nat → DocOp
  | removeMemberOp : String → DocOp
  | shrinkOp : DocOp
  | clearOp : DocOp
  | gcOp : DocOp

/-- Effect of one document operation on the document state (the Bool
results of add/setMember are observations, not state). -/
def applyOp (d : JsonDocument) : DocOp → JsonDocument
  | .addValue v => (d.add v).2
  | .setMemberOp k v => (d.setMember k v).2
  | .removeElementOp i => d.removeElement i
  | .removeMemberOp k => d.removeMember k
  | .shrinkOp => d.shrinkToFit
  | .clearOp => d.clear
  | .gcOp => d.garbageCollect.2

/-- Effect of a sequence of document operations, first operation first. -/
def applyOps (d : JsonDocument) (ops : List DocOp) : JsonDocument :=
  ops.foldl applyOp d

/-- Operations that neither clear nor fully rebuild the document: the
"further operations" of the sticky-overflow clause (clear() and the
garbage collector's full reconstruction are the two resetting events). -/
def DocOp.isMutOp : DocOp → Bool
  | .clearOp => false
  | .gcOp => false
  | _ => true

/-- World after mutating a fresh copy of a document: the original document
next to the mutated copy. -/
def mutateCopy (d : JsonDocument) (op : DocOp) : JsonDocument × JsonDocument :=
  (d, applyOp (JsonDocument.copyCtor d) op)

/-- Builds onto a document by appending the given integers in order
(`add(value)` repeatedly, auto-vivifying a Null root to an Array). -/
def addAll (d : JsonDocument) (vals : List Int) : JsonDocument :=
  vals.foldl (fun a n => (a.add (.intV n)).2) d

/-- Applies the given element removals in order. -/
def removeAll (d : JsonDocument) (idxs : List Nat) : JsonDocument :=
  idxs.foldl (fun a i => a.removeElement i) d

/-- Sample document: capacity 200, one integer element appended. -/
def docOneInt : JsonDocument :=
  ((JsonDocument.new 200).add (.intV 1)).2

/-- Sample document: capacity 200, three integer elements 1, 2, 3. -/
def docArr123 : JsonDocument :=
  (((((JsonDocument.new 200).add (.intV 1)).2.add (.intV 2)).2.add (.intV 3)).2)

/-- Sample document: capacity 200, members a = 1 and b = 2. -/
def docObjAB : JsonDocument :=
  ((((JsonDocument.new 200).setMember "a" (.intV 1)).2.setMember "b" (.intV 2)).2)

/-- Sample document: capacity 8, overflowed by a string member that does
not fit (the spec's overflow scenario). -/
def docOverflow : JsonDocument :=
  ((JsonDocument.new 8).setMember "k" (.strV "a long string")).2

/-! ## Helper lemmas about the clone traversal and graph equality -/

mutual

/-- In the offset-free tree model the clone traversal reproduces the
source graph exactly. -/
theorem variantCopy_eq : (v : VariantData) → variantCopy v = v
  | .nullV => by rw [variantCopy]
  | .boolV _ => by rw [variantCopy]
  | .intV _ => by rw [variantCopy]
  | .floatV _ => by rw [variantCopy]
  | .strV _ => by rw [variantCopy]
  | .arrV xs => by rw [variantCopy, variantCopyList_eq xs]
  | .objV ms => by rw [variantCopy, variantCopyMembers_eq ms]

/-- Cloning a child list reproduces it exactly. -/
theorem variantCopyList_eq : (xs : List VariantData) → variantCopyList xs = xs
  | [] => by rw [variantCopyList]
  | x :: xs => by rw [variantCopyList, variantCopy_eq x, variantCopyList_eq xs]

/-- Cloning a member list reproduces it exactly. -/
theorem variantCopyMembers_eq :
    (ms : List (String × VariantData)) → variantCopyMembers ms = ms
  | [] => by rw [variantCopyMembers]
  | m :: ms => by rw [variantCopyMembers, variantCopy_eq m.2, variantCopyMembers_eq ms]

end

mutual

/-- Graph equality is reflexive. -/
theorem graphEq_refl : (v : VariantData) → graphEq v v = true
  | .nullV => by rw [graphEq]
  | .boolV _ => by rw [graphEq]; simp
  | .intV _ => by rw [graphEq]; simp
  | .floatV _ => by rw [graphEq]; simp
  | .strV _ => by rw [graphEq]; simp
  | .arrV xs => by rw [graphEq]; exact graphEqList_refl xs
  | .objV ms => by rw [graphEq]; exact graphEqMembers_refl ms

/-- Pairwise graph equality of a child list with itself. -/
theorem graphEqList_refl : (xs : List VariantData) → graphEqList xs xs = true
  | [] => by rw [graphEqList]
  | x :: xs => by
      rw [graphEqList, graphEq_refl x, graphEqList_refl xs]; rfl

/-- Pairwise graph equality of a member list with itself. -/
theorem graphEqMembers_refl :
    (ms : List (String × VariantData)) → graphEqMembers ms ms = true
  | [] => by rw [graphEqMembers]
  | m :: ms => by
      rw [graphEqMembers, graphEq_refl m.2, graphEqMembers_refl ms]; simp

end

/-- Copy-construction when the source's reachable graph fits in its own
capacity (which every API-built document satisfies, since the live data
is at most the used size): the clone has the source's capacity, its used
size is exactly the reachable graph's storage need, the overflow flag is
fresh, and the graph is reproduced. -/
theorem copyCtor_spec (d : JsonDocument) (h : d.data.liveSize ≤ d.resources.capacity) :
    JsonDocument.copyCtor d =
      ⟨⟨d.resources.capacity, d.data.liveSize, false⟩, d.data⟩ := by
  unfold JsonDocument.copyCtor JsonDocument.setFrom
  simp only [JsonDocument.new, ResourceManager.new, JsonDocument.clear,
    ResourceManager.clear, h, if_pos, variantCopy_eq]

/-- The copy-constructor always creates its arena with the source's
capacity, whether or not the deep copy succeeds. -/
theorem copyCtor_capacity (d : JsonDocument) :
    (JsonDocument.copyCtor d).resources.capacity = d.resources.capacity := by
  unfold JsonDocument.copyCtor JsonDocument.setFrom
  by_cases h : d.data.liveSize ≤ d.resources.capacity <;>
    simp [JsonDocument.new, ResourceManager.new, JsonDocument.clear,
      ResourceManager.clear, h]

/-! ## Claim theorems -/

/-- Claim C4: a copy of a populated document is graph-equal to the source
(§4.2 equality), and independent — mutating the copy through any document
operation leaves the source document unchanged (each document owns its
arena, so the world after mutating the copy still carries the source
verbatim). -/
theorem C4_copy_roundtrip (d : JsonDocument) (op : DocOp)
    (_hpop : d.data ≠ .nullV) (hfit : d.data.liveSize ≤ d.resources.capacity) :
    graphEq (JsonDocument.copyCtor d).data d.data = true ∧
    (mutateCopy d op).1 = d := by
  rw [copyCtor_spec d hfit]
  exact ⟨graphEq_refl d.data, rfl⟩

/-- Claim C4, witness: the copy round-trip evaluated on the three-element
array document with a removal mutating the copy. -/
theorem C4_copy_roundtrip_witness :
    docArr123.data ≠ .nullV ∧
    docArr123.data.liveSize ≤ docArr123.resources.capacity ∧
    (graphEq (JsonDocument.copyCtor docArr123).data docArr123.data = true ∧
     (mutateCopy docArr123 (.removeElementOp 1)).1 = docArr123) :=
  ⟨fun hcon => VariantData.noConfusion hcon, by decide,
   C4_copy_roundtrip docArr123 (.removeElementOp 1)
     (fun hcon => VariantData.noConfusion hcon) (by decide)⟩

/-- Claim C7: removing an element or a member unlinks the entry from the
parent's child list, shifting subsequent entries to fill the gap while
preserving the order of the remaining entries, and leaves the arena
resources — in particular the used memory — unchanged. -/
theorem C7_remove_unlinks (d e : JsonDocument) (xs : List VariantData) (i : Nat)
    (l1 l2 : List (String × VariantData)) (k : String) (v : VariantData)
    (ha : d.data = .arrV xs) (hb : e.data = .objV (l1 ++ (k, v) :: l2))
    (hk : ∀ m ∈ l1, (m.1 == k) = false) :
    (d.removeElement i).resources = d.resources ∧
    (d.removeElement i).memoryUsage = d.memoryUsage ∧
    (d.removeElement i).data = .arrV (xs.take i ++ xs.drop (i + 1)) ∧
    (e.removeMember k).resources = e.resources ∧
    (e.removeMember k).memoryUsage = e.memoryUsage ∧
    (e.removeMember k).data = .objV (l1 ++ l2) := by
  obtain ⟨rmd, dd⟩ := d
  obtain ⟨rme, ed⟩ := e
  cases ha
  cases hb
  refine ⟨rfl, rfl, ?_, rfl, rfl, ?_⟩
  · simp [JsonDocument.removeElement, List.eraseIdx_eq_take_drop_succ]
  · simp only [JsonDocument.removeMember]
    rw [List.eraseP_append_right _ (by intro b hbm; simp [hk b hbm]),
      List.eraseP_cons_of_pos (by simp)]

/-- Claim C7, witness: removal evaluated on the three-element array
document (remove index 1) and on the two-member object document
(remove key "b"). -/
theorem C7_remove_unlinks_witness :
    docArr123.data = .arrV [.intV 1, .intV 2, .intV 3] ∧
    docObjAB.data = .objV ([("a", .intV 1)] ++ ("b", .intV 2) :: []) ∧
    ((docArr123.removeElement 1).resources = docArr123.resources ∧
     (docArr123.removeElement 1).memoryUsage = docArr123.memoryUsage ∧
     (docArr123.removeElement 1).data =
       .arrV ([VariantData.intV 1, .intV 2, .intV 3].take 1 ++
              [VariantData.intV 1, .intV 2, .intV 3].drop 2) ∧
     (docObjAB.removeMember "b").resources = docObjAB.resources ∧
     (docObjAB.removeMember "b").memoryUsage = docObjAB.memoryUsage ∧
     (docObjAB.removeMember "b").data = .objV ([("a", .intV 1)] ++ [])) :=
  ⟨rfl, rfl,
   C7_remove_unlinks docArr123 docObjAB [.intV 1, .intV 2, .intV 3] 1
     [("a", .intV 1)] [] "b" (.intV 2) rfl rfl (by decide)⟩

/-- Any single arena allocation keeps the used size within capacity. -/
theorem alloc_used_le (rm : ResourceManager) (n : Nat)
    (h : rm.used ≤ rm.capacity) :
    ((rm.alloc n).2).used ≤ ((rm.alloc n).2).capacity := by
  by_cases hc : rm.used + n ≤ rm.capacity <;>
    simp [ResourceManager.alloc, hc, h]

/-- Any single arena allocation keeps the sticky overflow flag set. -/
theorem alloc_sticky (rm : ResourceManager) (n : Nat)
    (h : rm.overflowed = true) : ((rm.alloc n).2).overflowed = true := by
  by_cases hc : rm.used + n ≤ rm.capacity <;>
    simp [ResourceManager.alloc, hc, h]

/-- The temporary produced by copy-construction satisfies the used-size
bound no matter whether the deep copy fits. -/
theorem copyCtor_used_le (d : JsonDocument) :
    (JsonDocument.copyCtor d).resources.used ≤
      (JsonDocument.copyCtor d).resources.capacity := by
  unfold JsonDocument.copyCtor JsonDocument.setFrom
  by_cases h : d.data.liveSize ≤ d.resources.capacity <;>
    simp [JsonDocument.new, ResourceManager.new, JsonDocument.clear,
      ResourceManager.clear, h]

/-- One document operation preserves the used-size ≤ capacity invariant. -/
theorem applyOp_used_le (d : JsonDocument) (o : DocOp)
    (h : d.resources.used ≤ d.resources.capacity) :
    (applyOp d o).resources.used ≤ (applyOp d o).resources.capacity := by
  cases o with
  | addValue v =>
      cases hd : d.data <;>
        simp only [applyOp, JsonDocument.add, hd] <;>
        first
          | exact h
          | (by_cases hc :
              d.resources.used + (slotSize + v.liveSize) ≤ d.resources.capacity <;>
              simp [ResourceManager.alloc, hc, h])
  | setMemberOp k v =>
      cases hd : d.data with
      | nullV =>
          simp only [applyOp, JsonDocument.setMember, hd]
          by_cases hc :
              d.resources.used + (slotSize + stringSize k + v.liveSize) ≤
                d.resources.capacity <;>
            simp [ResourceManager.alloc, hc, h]
      | objV ms =>
          simp only [applyOp, JsonDocument.setMember, hd]
          by_cases hany : ms.any (fun m => m.1 == k)
          · simp only [hany, if_true]
            by_cases hc : d.resources.used + v.liveSize ≤ d.resources.capacity <;>
              simp [ResourceManager.alloc, hc, h]
          · simp only [hany, if_false]
            by_cases hc :
                d.resources.used + (slotSize + stringSize k + v.liveSize) ≤
                  d.resources.capacity <;>
              simp [ResourceManager.alloc, hc, h]
      | _ => simp only [applyOp, JsonDocument.setMember, hd]; exact h
  | removeElementOp i =>
      cases hd : d.data <;> simp [applyOp, JsonDocument.removeElement, hd, h]
  | removeMemberOp k =>
      cases hd : d.data <;> simp [applyOp, JsonDocument.removeMember, hd, h]
  | shrinkOp => simp [applyOp, JsonDocument.shrinkToFit]
  | clearOp => simp [applyOp, JsonDocument.clear, ResourceManager.clear]
  | gcOp =>
      simp only [applyOp]
      unfold JsonDocument.garbageCollect
      by_cases hz : (JsonDocument.copyCtor d).resources.capacity = 0 <;>
        simp [hz, JsonDocument.moveAssignFrom]
      · exact h
      · exact copyCtor_used_le d

/-- One non-resetting document operation preserves the sticky overflow
flag. -/
theorem applyOp_sticky (d : JsonDocument) (o : DocOp) (ho : o.isMutOp = true)
    (h : d.overflowed = true) : (applyOp d o).overflowed = true := by
  cases o with
  | addValue v =>
      cases hd : d.data <;>
        simp only [applyOp, JsonDocument.add, hd, JsonDocument.overflowed] at h ⊢ <;>
        first
          | exact h
          | (by_cases hc :
              d.resources.used + (slotSize + v.liveSize) ≤ d.resources.capacity <;>
              simp [ResourceManager.alloc, hc, h])
  | setMemberOp k v =>
      cases hd : d.data with
      | nullV =>
          simp only [applyOp, JsonDocument.setMember, hd,
            JsonDocument.overflowed] at h ⊢
          by_cases hc :
              d.resources.used + (slotSize + stringSize k + v.liveSize) ≤
                d.resources.capacity <;>
            simp [ResourceManager.alloc, hc, h]
      | objV ms =>
          simp only [applyOp, JsonDocument.setMember, hd,
            JsonDocument.overflowed] at h ⊢
          by_cases hany : ms.any (fun m => m.1 == k)
          · simp only [hany, if_true]
            by_cases hc : d.resources.used + v.liveSize ≤ d.resources.capacity <;>
              simp [ResourceManager.alloc, hc, h]
          · simp only [hany, if_false]
            by_cases hc :
                d.resources.used + (slotSize + stringSize k + v.liveSize) ≤
                  d.resources.capacity <;>
              simp [ResourceManager.alloc, hc, h]
      | _ =>
          simp only [applyOp, JsonDocument.setMember, hd,
            JsonDocument.overflowed] at h ⊢
          exact h
  | removeElementOp i =>
      cases hd : d.data <;>
        simp only [applyOp, JsonDocument.removeElement, hd,
          JsonDocument.overflowed] at h ⊢ <;> exact h
  | removeMemberOp k =>
      cases hd : d.data <;>
        simp only [applyOp, JsonDocument.removeMember, hd,
          JsonDocument.overflowed] at h ⊢ <;> exact h
  | shrinkOp =>
      simp only [applyOp, JsonDocument.shrinkToFit, JsonDocument.overflowed] at h ⊢
      exact h
  | clearOp => simp [DocOp.isMutOp] at ho
  | gcOp => simp [DocOp.isMutOp] at ho

/-- The used-size ≤ capacity invariant is preserved across any operation
sequence. -/
theorem applyOps_used_le (ops : List DocOp) : ∀ d : JsonDocument,
    d.resources.used ≤ d.resources.capacity →
    (applyOps d ops).resources.used ≤ (applyOps d ops).resources.capacity := by
  induction ops with
  | nil => intro d h; simpa [applyOps] using h
  | cons o os ih =>
      intro d h
      simpa [applyOps] using ih (applyOp d o) (applyOp_used_le d o h)

/-- The sticky overflow flag survives any sequence of non-resetting
operations. -/
theorem applyOps_sticky (ops : List DocOp) : ∀ d : JsonDocument,
    (∀ o ∈ ops, o.isMutOp = true) → d.overflowed = true →
    (applyOps d ops).overflowed = true := by
  induction ops with
  | nil => intro d _ h; simpa [applyOps] using h
  | cons o os ih =>
      intro d hall h
      have hstep := applyOp_sticky d o (hall o (List.mem_cons_self o os)) h
      simpa [applyOps] using
        ih (applyOp d o) (fun oo hoo => hall oo (List.mem_cons_of_mem o hoo)) hstep

/-- Claim C6: along every operation sequence on a document, the used size
never exceeds the capacity at any observation point (any cut of the
sequence), and once the overflow flag is set it stays set after every
further operation — where clear() and the garbage collector's full
reconstruction are the only resetting events. -/
theorem C6_capacity_invariant (d : JsonDocument) (ops p q : List DocOp)
    (hsplit : ops = p ++ q)
    (hinv : d.resources.used ≤ d.resources.capacity) :
    ((applyOps d p).resources.used ≤ (applyOps d p).resources.capacity) ∧
    ((∀ o ∈ ops, o.isMutOp = true) → d.overflowed = true →
      (applyOps d p).overflowed = true) := by
  refine ⟨applyOps_used_le p d hinv, fun hall hov => ?_⟩
  exact applyOps_sticky p d
    (fun o ho => hall o (by rw [hsplit]; exact List.mem_append_left q ho)) hov

/-- Claim C6, witness: the invariant and stickiness evaluated on the
overflowed capacity-8 document followed by one further add. -/
theorem C6_capacity_invariant_witness :
    ((applyOps docOverflow [DocOp.addValue (.intV 1)]).resources.used ≤
      (applyOps docOverflow [DocOp.addValue (.intV 1)]).resources.capacity) ∧
    ((applyOps docOverflow [DocOp.addValue (.intV 1)]).overflowed = true) := by
  have happ := C6_capacity_invariant docOverflow [DocOp.addValue (.intV 1)]
    [DocOp.addValue (.intV 1)] [] rfl (by decide)
  exact ⟨happ.1, happ.2 (by decide) (by decide)⟩

/-- Storage need of a child list whose children carry no payload of their
own (for example integers): exactly one slot per element. -/
theorem liveSizeList_zeros (zs : List VariantData)
    (h : ∀ z ∈ zs, z.liveSize = 0) :
    liveSizeList zs = slotSize * zs.length := by
  induction zs with
  | nil => rw [liveSizeList]; simp
  | cons z zs ih =>
      rw [liveSizeList, h z (List.mem_cons_self z zs),
        ih (fun x hx => h x (List.mem_cons_of_mem z hx))]
      simp [List.length_cons]
      ring

/-- Integer nodes occupy only their slot: no extra payload bytes. -/
theorem liveSize_of_mem_map_int (vals : List Int) (z : VariantData)
    (hz : z ∈ vals.map VariantData.intV) : z.liveSize = 0 := by
  obtain ⟨n, _, rfl⟩ := List.mem_map.mp hz
  rw [VariantData.liveSize]

/-- Appending integers to an array document advances the used size by one
slot per element and appends the corresponding nodes, as long as
everything fits. -/
theorem addAll_arr (vals : List Int) : ∀ (capa u : Nat) (ys : List VariantData),
    u + slotSize * vals.length ≤ capa →
    addAll ⟨⟨capa, u, false⟩, .arrV ys⟩ vals =
      ⟨⟨capa, u + slotSize * vals.length, false⟩,
       .arrV (ys ++ vals.map VariantData.intV)⟩ := by
  induction vals with
  | nil => intro capa u ys _; simp [addAll]
  | cons n ns ih =>
      intro capa u ys h
      have hlive : (VariantData.intV n).liveSize = 0 := by rw [VariantData.liveSize]
      have hle : u + slotSize ≤ capa := by
        simp only [List.length_cons] at h
        nlinarith [h]
      have hstep : (JsonDocument.add ⟨⟨capa, u, false⟩, .arrV ys⟩ (.intV n)).2 =
          ⟨⟨capa, u + slotSize, false⟩, .arrV (ys ++ [.intV n])⟩ := by
        simp [JsonDocument.add, ResourceManager.alloc, hle, hlive]
      have hrest : (u + slotSize) + slotSize * ns.length ≤ capa := by
        simp only [List.length_cons] at h
        nlinarith [h]
      calc addAll ⟨⟨capa, u, false⟩, .arrV ys⟩ (n :: ns)
          = addAll ⟨⟨capa, u + slotSize, false⟩, .arrV (ys ++ [.intV n])⟩ ns := by
            simp only [addAll, List.foldl_cons]
            rw [hstep]
        _ = ⟨⟨capa, (u + slotSize) + slotSize * ns.length, false⟩,
             .arrV ((ys ++ [.intV n]) ++ ns.map VariantData.intV)⟩ := ih capa _ _ hrest
        _ = ⟨⟨capa, u + slotSize * (n :: ns).length, false⟩,
             .arrV (ys ++ (n :: ns).map VariantData.intV)⟩ := by
            have harith : (u + slotSize) + slotSize * ns.length =
                u + slotSize * (ns.length + 1) := by ring
            simp [harith, List.length_cons]

/-- Building an array of integers from a fresh document: the first add
auto-vivifies the Null root to an Array, the rest append. -/
theorem addAll_new_cons (capa : Nat) (n : Int) (ns : List Int)
    (h : slotSize * (ns.length + 1) ≤ capa) :
    addAll (JsonDocument.new capa) (n :: ns) =
      ⟨⟨capa, slotSize * (ns.length + 1), false⟩,
       .arrV ((n :: ns).map VariantData.intV)⟩ := by
  have hlive : (VariantData.intV n).liveSize = 0 := by rw [VariantData.liveSize]
  have hle : slotSize ≤ capa := by nlinarith [h]
  have hfirst : ((JsonDocument.new capa).add (.intV n)).2 =
      ⟨⟨capa, slotSize, false⟩, .arrV [.intV n]⟩ := by
    simp [JsonDocument.new, ResourceManager.new, JsonDocument.add,
      ResourceManager.alloc, hle, hlive]
  have hrest : slotSize + slotSize * ns.length ≤ capa := by nlinarith [h]
  calc addAll (JsonDocument.new capa) (n :: ns)
      = addAll ⟨⟨capa, slotSize, false⟩, .arrV [.intV n]⟩ ns := by
        simp only [addAll, List.foldl_cons]
        rw [hfirst]
    _ = ⟨⟨capa, slotSize + slotSize * ns.length, false⟩,
         .arrV ([VariantData.intV n] ++ ns.map VariantData.intV)⟩ := by
        have := addAll_arr ns capa slotSize [.intV n] (by nlinarith [h])
        simpa using this
    _ = ⟨⟨capa, slotSize * (ns.length + 1), false⟩,
         .arrV ((n :: ns).map VariantData.intV)⟩ := by
        have harith : slotSize + slotSize * ns.length = slotSize * (ns.length + 1) := by
          ring
        simp [harith]

/-- A sequence of element removals never touches the arena resources and
keeps the root an array whose children form a sublist of the original
children. -/
theorem removeAll_arr (idxs : List Nat) : ∀ (rm : ResourceManager)
    (xs : List VariantData),
    ∃ zs, removeAll ⟨rm, .arrV xs⟩ idxs = ⟨rm, .arrV zs⟩ ∧ List.Sublist zs xs := by
  induction idxs with
  | nil => intro rm xs; exact ⟨xs, by simp [removeAll], List.Sublist.refl xs⟩
  | cons i is ih =>
      intro rm xs
      obtain ⟨zs, heq, hsub⟩ := ih rm (xs.eraseIdx i)
      refine ⟨zs, ?_, hsub.trans (List.eraseIdx_sublist xs i)⟩
      calc removeAll ⟨rm, .arrV xs⟩ (i :: is)
          = removeAll ⟨rm, .arrV (xs.eraseIdx i)⟩ is := by
            simp [removeAll, JsonDocument.removeElement]
        _ = ⟨rm, .arrV zs⟩ := heq

/-- Claim C3: in a document where N integer elements were added and then M
of them removed (0 < M < N, all removals effective), the removals leave
the used memory unchanged, garbage collection succeeds, the used memory
strictly decreases across it, and the surviving graph is graph-equal to
the post-removal live contents. -/
theorem C3_gc_reclaims_holes (capa N M : Nat) (vals : List Int) (idxs : List Nat)
    (hN : vals.length = N) (hM : idxs.length = M) (hMpos : 0 < M) (hMN : M < N)
    (hcap : slotSize * N ≤ capa)
    (heff : (removeAll (addAll (JsonDocument.new capa) vals) idxs).size = N - M) :
    (removeAll (addAll (JsonDocument.new capa) vals) idxs).memoryUsage =
      (addAll (JsonDocument.new capa) vals).memoryUsage ∧
    (removeAll (addAll (JsonDocument.new capa) vals) idxs).garbageCollect.1 = true ∧
    (removeAll (addAll (JsonDocument.new capa) vals) idxs).garbageCollect.2.memoryUsage <
      (removeAll (addAll (JsonDocument.new capa) vals) idxs).memoryUsage ∧
    graphEq
      (removeAll (addAll (JsonDocument.new capa) vals) idxs).garbageCollect.2.data
      (removeAll (addAll (JsonDocument.new capa) vals) idxs).data = true := by
  subst hN hM
  obtain ⟨n, ns, rfl⟩ : ∃ n ns, vals = n :: ns := by
    cases vals with
    | nil => exact absurd hMN (by simp)
    | cons a l => exact ⟨a, l, rfl⟩
  have hlen : (n :: ns).length = ns.length + 1 := List.length_cons n ns
  rw [hlen] at hcap heff hMN
  have h1 := addAll_new_cons capa n ns hcap
  rw [h1] at heff ⊢
  obtain ⟨zs, h2, hsub⟩ := removeAll_arr idxs
    ⟨capa, slotSize * (ns.length + 1), false⟩ ((n :: ns).map VariantData.intV)
  rw [h2] at heff ⊢
  have hzslen : zs.length = (ns.length + 1) - idxs.length := by
    simpa [JsonDocument.size, VariantData.size] using heff
  have hzero : ∀ z ∈ zs, z.liveSize = 0 := fun z hz =>
    liveSize_of_mem_map_int (n :: ns) z (hsub.subset hz)
  have hlive : (VariantData.arrV zs).liveSize = slotSize * zs.length := by
    rw [VariantData.liveSize]
    exact liveSizeList_zeros zs hzero
  have hzlt : zs.length < ns.length + 1 := by omega
  have hfit : (VariantData.arrV zs).liveSize ≤ capa := by
    rw [hlive]
    calc slotSize * zs.length ≤ slotSize * (ns.length + 1) :=
          Nat.mul_le_mul_left slotSize (Nat.le_of_lt hzlt)
      _ ≤ capa := hcap
  have hcapa_pos : capa ≠ 0 := by
    have : slotSize * (ns.length + 1) ≥ slotSize := by nlinarith
    simp only [slotSize] at this hcap
    omega
  have hcopy := copyCtor_spec ⟨⟨capa, slotSize * (ns.length + 1), false⟩, .arrV zs⟩ hfit
  have hgc : (⟨⟨capa, slotSize * (ns.length + 1), false⟩,
      .arrV zs⟩ : JsonDocument).garbageCollect =
      (true, ⟨⟨capa, (VariantData.arrV zs).liveSize, false⟩, .arrV zs⟩) := by
    unfold JsonDocument.garbageCollect
    rw [hcopy]
    simp [hcapa_pos, JsonDocument.moveAssignFrom]
  rw [hgc]
  refine ⟨rfl, rfl, ?_, graphEq_refl (.arrV zs)⟩
  show (VariantData.arrV zs).liveSize < slotSize * (ns.length + 1)
  rw [hlive]
  simp only [slotSize]
  omega

/-- Claim C3, witness: capacity 200, elements 1, 2, 3 added, index 1
removed, garbage collection evaluated. -/
theorem C3_gc_reclaims_holes_witness :
    [1, 2, 3].length = 3 ∧ [1].length = 1 ∧ 0 < 1 ∧ 1 < 3 ∧
    slotSize * 3 ≤ 200 ∧
    (removeAll (addAll (JsonDocument.new 200) [1, 2, 3]) [1]).size = 3 - 1 ∧
    ((removeAll (addAll (JsonDocument.new 200) [1, 2, 3]) [1]).memoryUsage =
       (addAll (JsonDocument.new 200) [1, 2, 3]).memoryUsage ∧
     (removeAll (addAll (JsonDocument.new 200) [1, 2, 3]) [1]).garbageCollect.1 = true ∧
     (removeAll (addAll (JsonDocument.new 200) [1, 2, 3])
         [1]).garbageCollect.2.memoryUsage <
       (removeAll (addAll (JsonDocument.new 200) [1, 2, 3]) [1]).memoryUsage ∧
     graphEq
       (removeAll (addAll (JsonDocument.new 200) [1, 2, 3]) [1]).garbageCollect.2.data
       (removeAll (addAll (JsonDocument.new 200) [1, 2, 3]) [1]).data = true) :=
  ⟨rfl, rfl, by decide, by decide, by decide, by decide,
   C3_gc_reclaims_holes 200 3 1 [1, 2, 3] [1] rfl rfl (by decide) (by decide)
     (by decide) (by decide)⟩

/-- Claim C1, counterexample: the copy-constructor does not size the new
arena to the source's used memory. For a capacity-200 document holding one
integer, the used memory is 16 bytes but the copy's arena is created with
the full 200-byte capacity (`JsonDocument(src.resources_.capacity(), ...)`
in the source). -/
theorem C1_counterexample :
    (JsonDocument.copyCtor docOneInt).resources.capacity ≠ docOneInt.memoryUsage ∧
    (JsonDocument.copyCtor docOneInt).resources.capacity = docOneInt.resources.capacity ∧
    docOneInt.memoryUsage ≠ docOneInt.resources.capacity := by
  decide

/-- Claim C1, amended: copy-constructing from a source document d creates
the new document's arena sized to d's full capacity (not d's used
memory), and then deep-copies d's reachable graph into the new arena, so
the copy's used memory is exactly the reachable graph's storage need. -/
theorem C1_copy_ctor_sizing (d : JsonDocument)
    (h : d.data.liveSize ≤ d.resources.capacity) :
    (JsonDocument.copyCtor d).resources.capacity = d.resources.capacity ∧
    (JsonDocument.copyCtor d).memoryUsage = d.data.liveSize ∧
    graphEq (JsonDocument.copyCtor d).data d.data = true := by
  rw [copyCtor_spec d h]
  exact ⟨rfl, rfl, graphEq_refl d.data⟩

/-- Claim C1, witness: the amended statement evaluated on the one-integer
document. -/
theorem C1_copy_ctor_sizing_witness :
    docOneInt.data.liveSize ≤ docOneInt.resources.capacity ∧
    ((JsonDocument.copyCtor docOneInt).resources.capacity = docOneInt.resources.capacity ∧
     (JsonDocument.copyCtor docOneInt).memoryUsage = docOneInt.data.liveSize ∧
     graphEq (JsonDocument.copyCtor docOneInt).data docOneInt.data = true) :=
  ⟨by decide, C1_copy_ctor_sizing docOneInt (by decide)⟩

/-- Claim C2: garbage collection builds a temporary clone with the
source's capacity; when that capacity is zero it returns false and the
document is entirely unchanged (same resources, same root), otherwise it
move-assigns the clone into the document and returns true. -/
theorem C2_gc_behavior (d : JsonDocument) :
    (JsonDocument.copyCtor d).resources.capacity = d.resources.capacity ∧
    d.garbageCollect =
      (if d.resources.capacity = 0 then (false, d)
       else (true, ⟨(JsonDocument.copyCtor d).resources,
                    (JsonDocument.copyCtor d).data⟩)) := by
  refine ⟨copyCtor_capacity d, ?_⟩
  unfold JsonDocument.garbageCollect
  by_cases h : d.resources.capacity = 0 <;>
    simp [copyCtor_capacity d, h, JsonDocument.moveAssignFrom]

/-- Claim C5: move-assignment adopts the source's arena and root directly
with no copy, and leaves the source empty: size 0, used memory 0, root
Null, capacity 0. The move-constructor routes through the same path. -/
theorem C5_move_empties_source (dst src : JsonDocument) :
    (dst.moveAssignFrom src).2.size = 0 ∧
    (dst.moveAssignFrom src).2.memoryUsage = 0 ∧
    (dst.moveAssignFrom src).2.data = .nullV ∧
    (dst.moveAssignFrom src).2.resources.capacity = 0 ∧
    (dst.moveAssignFrom src).1.data = src.data ∧
    (dst.moveAssignFrom src).1.resources = src.resources ∧
    graphEq (dst.moveAssignFrom src).1.data src.data = true ∧
    src.moveCtor = ((⟨src.resources, src.data⟩ : JsonDocument),
                    (dst.moveAssignFrom src).2) :=
  ⟨rfl, rfl, rfl, rfl, rfl, rfl, graphEq_refl src.data, rfl⟩

/-- Claim C8: shrink-to-fit is idempotent on the used memory — both calls
report the reachable graph's storage need — and the root graph is
untouched, hence graph-equal to its state before the first call. -/
theorem C8_shrink_idempotent (d : JsonDocument) :
    d.shrinkToFit.memoryUsage = d.data.liveSize ∧
    d.shrinkToFit.shrinkToFit.memoryUsage = d.shrinkToFit.memoryUsage ∧
    d.shrinkToFit.data = d.data ∧
    d.shrinkToFit.shrinkToFit.data = d.data ∧
    graphEq d.shrinkToFit.shrinkToFit.data d.data = true :=
  ⟨rfl, rfl, rfl, rfl, graphEq_refl d.data⟩

/-- Claim C9: clear() resets the arena's used size to zero, clears the
overflow flag, sets the root to Null, and retains the arena's capacity
for reuse. -/
theorem C9_clear_resets (d : JsonDocument) :
    d.clear.memoryUsage = 0 ∧
    d.clear.overflowed = false ∧
    d.clear.data = .nullV ∧
    d.clear.resources.capacity = d.resources.capacity :=
  ⟨rfl, rfl, rfl, rfl⟩

/-- Claim C10: to-type conversion clears the document first (arena reset,
root Null) and only then converts the fresh root, so no prior member or
element ever survives: the result is the cleared arena with an empty
container root, every member lookup misses, every element lookup misses,
and the used memory is back to zero. -/
theorem C10_to_clears_first (d : JsonDocument) (k : String) (i : Nat) :
    d.toJsonArray = ⟨d.clear.resources, .arrV []⟩ ∧
    d.toJsonObject = ⟨d.clear.resources, .objV []⟩ ∧
    d.toJsonVariant = d.clear ∧
    d.toJsonObject.getMember k = none ∧
    d.toJsonArray.getElement i = none ∧
    d.toJsonObject.size = 0 ∧
    d.toJsonArray.size = 0 ∧
    d.toJsonArray.memoryUsage = 0 ∧
    d.toJsonObject.memoryUsage = 0 := by
  refine ⟨rfl, rfl, rfl, rfl, ?_, rfl, rfl, rfl, rfl⟩
  simp [JsonDocument.toJsonArray, JsonDocument.getElement]

end ArduinoJson
